import Mathlib

/-!
Shallow embedding of the similarity-retrieval subsystem of
`src/rag/rag_pipeline.py` (class `RAGPipeline`), together with proofs of
the specification's claims about it.

Python floats that arise here are exact quotients of small naturals
(Jaccard ratios with denominators bounded by the token counts), so the
scoring function is modelled over `ℚ`; ordering and threshold comparisons
agree with IEEE doubles on all values that occur.  Python's `list[:k]`
slice is modelled by `pySlice`, covering negative `k` the way CPython
does.  `list.sort(key=..., reverse=True)` is a stable descending sort,
modelled by the stable `List.insertionSort` with the reflected `≤` on
scores.
-/

namespace RAG

/-- A metadata dictionary: association list, first binding wins
(Python dict literals here have distinct keys). -/
abbrev Metadata := List (String × String)

/-- `d.get(k)` on a metadata dictionary: `some v` if the key is bound,
`none` otherwise. -/
def metaGet (m : Metadata) (k : String) : Option String :=
  (m.find? (fun p => p.1 == k)).map (fun p => p.2)

/-- The fixed stop-word set removed by `_calculate_similarity`
(`rag_pipeline.py` line 134). -/
def stopWords : Finset String :=
  {"a", "an", "the", "and", "or", "is", "are", "for", "of", "to", "in"}

/-- `s.lower().split()`: lower-case the character sequence, split on
whitespace, and drop the empty chunks (Python `split()` with no argument
never yields empty words). -/
def tokenize (s : String) : List String :=
  (((s.data.map Char.toLower).splitOnP (fun c => c.isWhitespace)).map
      (fun w => String.mk w)).filter (fun t => t ≠ "")

/-- `set(s.lower().split()) - common_words`: the token list collapsed to
a set, stop words removed. -/
def tokenSet (s : String) : Finset String :=
  (tokenize s).toFinset \ stopWords

/-- `_calculate_similarity` (lines 119-145): Jaccard similarity of the
stop-word-filtered token sets, `0` when the union is empty. -/
def calculateSimilarity (query document : String) : ℚ :=
  let query_words := tokenSet query
  let doc_words := tokenSet document
  if (query_words ∪ doc_words).card = 0 then 0
  else ((query_words ∩ doc_words).card : ℚ) / ((query_words ∪ doc_words).card : ℚ)

/-- The 14 sample dictionaries of `_load_sample_documents`
(lines 33-111), verbatim. -/
def sampleDocuments : List Metadata :=
  [ [("text", "BS Electrical Engineering admission requirements: Minimum GPA 3.2, SAT score 1400+, ACT score 32+, completion of physics and chemistry courses, application deadline March 31"),
     ("category", "admission"), ("program", "BS Electrical Engineering")],
    [("text", "BS Computer Science eligibility criteria: Minimum GPA 3.0, strong mathematical foundation, SAT 1350+, ACT 31+, admission test required, rolling admission until seats fill"),
     ("category", "admission"), ("program", "BS Computer Science")],
    [("text", "General admission process: Online application, transcripts, test scores, essay, 2 recommendation letters, application fee $50, decision within 6 weeks"),
     ("category", "admission"), ("program", "General")],
    [("text", "Final exam schedule: Fall semester finals held December 10-20, Spring semester finals held May 5-15, summer exams June 20-July 5, exam schedule posted 2 weeks before"),
     ("category", "exam"), ("topic", "Exam Schedule")],
    [("text", "Grading policy: A (90-100), B (80-89), C (70-79), D (60-69), F (below 60), GPA calculation uses 4.0 scale, plus/minus grading for A/B/C grades, grade appeals within 30 days"),
     ("category", "exam"), ("topic", "Grading Policy")],
    [("text", "Exam retake policy: Students can retake courses for grade improvement, only latest grade counts toward GPA, 2 retakes per course maximum, must wait 1 semester between retakes"),
     ("category", "exam"), ("topic", "Retake Policy")],
    [("text", "Merit scholarships: Full tuition coverage for students with 3.8+ GPA and 1500+ SAT score, half tuition for 3.5+ GPA and 1400+ SAT, automatically awarded to eligible applicants"),
     ("category", "scholarship"), ("scholarship_type", "Merit-Based")],
    [("text", "Need-based financial aid: Available for students with FAFSA EFC below 50000, grants up to $10000/year, low-interest loans 3.5% APR, work-study jobs $15/hour"),
     ("category", "scholarship"), ("scholarship_type", "Need-Based")],
    [("text", "Department scholarships: Engineering scholarship $5000/year for top students, business school scholarship $7500/year, science scholarship $6000/year, separate application required"),
     ("category", "scholarship"), ("scholarship_type", "Department-Specific")],
    [("text", "Academic standing: Maintain minimum 2.0 GPA to remain in good standing, below 2.0 GPA results in academic probation, dismissal after 2 consecutive semesters on probation"),
     ("category", "academic_policy"), ("policy", "Academic Standing")],
    [("text", "Course registration: Priority registration for seniors, then juniors, sophomores, freshmen. Registration opens 2 weeks before semester. Maximum 18 credit hours per semester."),
     ("category", "academic_policy"), ("policy", "Registration")],
    [("text", "Prerequisite policy: Students must complete prerequisite courses with C grade or higher, prerequisite waivers available with department chair approval, verified through course history system"),
     ("category", "academic_policy"), ("policy", "Prerequisites")],
    [("text", "General education requirements: All students must complete 30 credit hours in general education including English, Mathematics, Science, Social Studies, Humanities. Specific courses listed in catalog."),
     ("category", "academic_policy"), ("policy", "Gen Ed Requirements")],
    [("text", "Degree completion: Bachelor's degree requires 120 credit hours minimum, GPA 2.0 or above, completion of all program and general education requirements, maximum 7 years to complete"),
     ("category", "academic_policy"), ("policy", "Degree Requirements")] ]

/-- The mutable state of a `RAGPipeline` object: the two parallel lists
`self.documents` and `self.metadata`. -/
structure RAGPipeline where
  documents : List String
  metadata : List Metadata
deriving DecidableEq

/-- `RAGPipeline.__init__` followed by `_load_sample_documents`
(lines 25-29, 113-115): `documents` holds each dictionary's `"text"`
entry, `metadata` the dictionaries themselves. -/
def initPipeline : RAGPipeline :=
  { documents := sampleDocuments.map (fun d => (metaGet d "text").getD "")
    metadata := sampleDocuments }

/-- One entry of a `retrieve` result list (lines 170-176). -/
structure RetrievalResult where
  rank : Nat
  text : String
  metadata : Metadata
  similarity_score : ℚ
  distance : ℚ
deriving DecidableEq

/-- Python's `l[:k]` for an arbitrary integer `k`: the first `k` elements
when `k ≥ 0`, all but the last `|k|` elements when `k < 0`. -/
def pySlice {α : Type} (l : List α) (k : ℤ) : List α :=
  if 0 ≤ k then l.take k.toNat else l.take (l.length - (-k).toNat)

/-- The `scores` list built by the loop in `retrieve` (lines 159-162):
`(index, similarity)` pairs in corpus order. -/
def scoresList (rag : RAGPipeline) (query : String) : List (Nat × ℚ) :=
  rag.documents.enum.map (fun p => (p.1, calculateSimilarity query p.2))

/-- The comparison `scores.sort(key=lambda x: x[1], reverse=True)` sorts
by: `a` may precede `b` iff `b`'s score does not exceed `a`'s. -/
def scoreLE (a b : Nat × ℚ) : Prop := b.2 ≤ a.2

instance : DecidableRel scoreLE :=
  fun a b => inferInstanceAs (Decidable (b.2 ≤ a.2))

instance : IsTotal (Nat × ℚ) scoreLE := ⟨fun a b => le_total b.2 a.2⟩

instance : IsTrans (Nat × ℚ) scoreLE := ⟨fun _ _ _ h h' => le_trans h' h⟩

/-- `scores.sort(key=lambda x: x[1], reverse=True)` (line 165): a stable
sort, descending on the score component, modelled by the stable
`insertionSort`. -/
def sortedScores (rag : RAGPipeline) (query : String) : List (Nat × ℚ) :=
  (scoresList rag query).insertionSort scoreLE

/-- `retrieve` (lines 147-179): score every document, stable-sort by
score descending, slice to `top_k`, and build 1-based-ranked results. -/
def retrieve (rag : RAGPipeline) (query : String) (top_k : ℤ) : List RetrievalResult :=
  (pySlice (sortedScores rag query) top_k).enum.map (fun p =>
    { rank := p.1 + 1
      text := rag.documents.getD p.2.1 ""
      metadata := rag.metadata.getD p.2.1 []
      similarity_score := p.2.2
      distance := 1 - p.2.2 })

/-- `retrieve`, with the state threaded explicitly as the method body
does: the body reads `self.documents` and `self.metadata` but assigns
only to locals, so the state it hands back is the state it received. -/
def retrieveS (rag : RAGPipeline) (query : String) (top_k : ℤ) :
    List RetrievalResult × RAGPipeline :=
  (retrieve rag query top_k, rag)

/-- `retrieve_by_category` (lines 181-203): oversample with
`retrieve(query, top_k * 3)`, keep results whose metadata `"category"`
equals `category`, slice to `top_k`. -/
def retrieve_by_category (rag : RAGPipeline) (query category : String)
    (top_k : ℤ) : List RetrievalResult :=
  let all_results := retrieve rag query (top_k * 3)
  let filtered_results :=
    all_results.filter (fun r => metaGet r.metadata "category" == some category)
  pySlice filtered_results top_k

/-- `add_document` (lines 229-239): append the text and the metadata
dictionary (`{}` when the argument is `None`). -/
def add_document (rag : RAGPipeline) (text : String) (metadata : Option Metadata) :
    RAGPipeline :=
  { documents := rag.documents ++ [text]
    metadata := rag.metadata ++ [metadata.getD []] }

/-- `evaluate_relevance` (lines 257-270): similarity against an ad-hoc
document text compared with the threshold; touches no pipeline state. -/
def evaluate_relevance (query document : String) (threshold : ℚ) : Bool :=
  calculateSimilarity query document ≥ threshold

end RAG

namespace RAG

/-! ### Helper lemmas -/

theorem pySlice_eq_take {α : Type} (l : List α) (k : ℤ) (hk : 0 ≤ k) :
    pySlice l k = l.take k.toNat := by
  simp [pySlice, hk]

theorem pySlice_sublist {α : Type} (l : List α) (k : ℤ) : (pySlice l k).Sublist l := by
  unfold pySlice
  split
  · exact List.take_sublist _ _
  · exact List.take_sublist _ _

theorem length_sortedScores (rag : RAGPipeline) (q : String) :
    (sortedScores rag q).length = rag.documents.length := by
  simp [sortedScores, scoresList, List.length_insertionSort]

theorem length_retrieve_eq (rag : RAGPipeline) (q : String) (k : ℤ) :
    (retrieve rag q k).length = (pySlice (sortedScores rag q) k).length := by
  simp [retrieve]

/-! ### Claim theorems: sizes, append, purity, symmetry -/

/-- Claim C3: for `top_k ≥ 0` the result of `retrieve` has length exactly
`min top_k (corpus size)`, and `retrieve` with `top_k = 0` is empty. -/
theorem retrieve_length_nonneg (rag : RAGPipeline) (q : String) (k : ℤ) (hk : 0 ≤ k) :
    (retrieve rag q k).length = min k.toNat rag.documents.length
    ∧ retrieve rag q 0 = [] := by
  constructor
  · rw [length_retrieve_eq, pySlice_eq_take _ _ hk, List.length_take, length_sortedScores]
  · rfl

/-- Witness for C3 at `top_k = 2` and `top_k = 0` on the built-in corpus. -/
theorem retrieve_length_nonneg_witness :
    (0 : ℤ) ≤ 2
    ∧ ((retrieve initPipeline "exam" 2).length
          = min (2 : ℤ).toNat initPipeline.documents.length
        ∧ retrieve initPipeline "exam" 0 = []) :=
  ⟨by decide, retrieve_length_nonneg initPipeline "exam" 2 (by decide)⟩

/-- Claim C2, amended: for negative `top_k`, `retrieve` follows Python
slice semantics and returns all but the last `|top_k|` ranked entries, so
its length is `corpus size - |top_k|` (truncated at zero), not `0`. -/
theorem retrieve_length_negative (rag : RAGPipeline) (q : String) (k : ℤ) (hk : k < 0) :
    (retrieve rag q k).length = rag.documents.length - (-k).toNat := by
  rw [length_retrieve_eq]
  unfold pySlice
  rw [if_neg (by omega), List.length_take, length_sortedScores]
  exact min_eq_left (Nat.sub_le _ _)

/-- Witness for the amended C2 at `top_k = -1` on the built-in corpus. -/
theorem retrieve_length_negative_witness :
    (-1 : ℤ) < 0
    ∧ (retrieve initPipeline "x" (-1)).length
        = initPipeline.documents.length - (-(-1 : ℤ)).toNat :=
  ⟨by decide, retrieve_length_negative initPipeline "x" (-1) (by decide)⟩

/-- Claim C9: the parallel-array invariant `|documents| = |metadata|`
holds after initialization; `add_document` appends exactly one entry to
each list (the empty dictionary when metadata is absent), grows the
corpus by one, and preserves the invariant. -/
theorem corpus_parallel_invariant :
    initPipeline.documents.length = initPipeline.metadata.length
    ∧ ∀ (rag : RAGPipeline) (t : String) (m : Option Metadata),
        (add_document rag t m).documents = rag.documents ++ [t]
        ∧ (add_document rag t m).metadata = rag.metadata ++ [m.getD []]
        ∧ (add_document rag t m).documents.length = rag.documents.length + 1
        ∧ (rag.documents.length = rag.metadata.length →
            (add_document rag t m).documents.length
              = (add_document rag t m).metadata.length) := by
  refine ⟨by simp [initPipeline], fun rag t m => ⟨rfl, rfl, by simp [add_document], ?_⟩⟩
  intro h
  simp [add_document, h]

/-- Claim C8: `retrieve`, with the state threaded explicitly, hands back
the corpus state unchanged while computing the same result list. -/
theorem retrieve_state_unchanged (rag : RAGPipeline) (q : String) (k : ℤ) :
    (retrieveS rag q k).2 = rag ∧ (retrieveS rag q k).1 = retrieve rag q k :=
  ⟨rfl, rfl⟩

/-- Claim C10: the similarity score is symmetric in its two arguments. -/
theorem calculateSimilarity_symm (a b : String) :
    calculateSimilarity a b = calculateSimilarity b a := by
  simp only [calculateSimilarity]
  rw [Finset.union_comm, Finset.inter_comm]

end RAG

namespace RAG

/-- Claim C5: `retrieve_by_category` is exactly the oversample-filter-
truncate composition, and every returned result carries the requested
category (exact, case-sensitive match). -/
theorem retrieve_by_category_spec (rag : RAGPipeline) (q c : String) (k : ℤ) (hk : 0 ≤ k) :
    retrieve_by_category rag q c k
      = ((retrieve rag q (k * 3)).filter
          (fun r => metaGet r.metadata "category" == some c)).take k.toNat
    ∧ ∀ r ∈ retrieve_by_category rag q c k, metaGet r.metadata "category" = some c := by
  constructor
  · simp only [retrieve_by_category]
    exact pySlice_eq_take _ _ hk
  · intro r hr
    simp only [retrieve_by_category] at hr
    have hr' := (pySlice_sublist _ _).subset hr
    exact eq_of_beq (List.mem_filter.mp hr').2

/-- Witness for C5 on the built-in corpus with category `"exam"`. -/
theorem retrieve_by_category_spec_witness :
    (0 : ℤ) ≤ 1
    ∧ (retrieve_by_category initPipeline "final exam" "exam" 1
        = ((retrieve initPipeline "final exam" (1 * 3)).filter
            (fun r => metaGet r.metadata "category" == some "exam")).take (1 : ℤ).toNat
      ∧ ∀ r ∈ retrieve_by_category initPipeline "final exam" "exam" 1,
          metaGet r.metadata "category" = some "exam") :=
  ⟨by decide, retrieve_by_category_spec initPipeline "final exam" "exam" 1 (by decide)⟩

/-- Claim C6: similarity scores lie in `[0, 1]`; the score is `0` when
both token sets are empty after lower-casing, splitting and stop-word
removal; and it is `1` only when the token sets are identical and
non-empty. -/
theorem calculateSimilarity_bounds (q d : String) :
    (0 ≤ calculateSimilarity q d ∧ calculateSimilarity q d ≤ 1)
    ∧ (tokenSet q = ∅ → tokenSet d = ∅ → calculateSimilarity q d = 0)
    ∧ (calculateSimilarity q d = 1 → tokenSet q = tokenSet d ∧ tokenSet q ≠ ∅) := by
  simp only [calculateSimilarity]
  by_cases h : (tokenSet q ∪ tokenSet d).card = 0
  · rw [if_pos h]
    exact ⟨⟨le_refl 0, by norm_num⟩, fun _ _ => rfl, fun h1 => absurd h1 (by norm_num)⟩
  · rw [if_neg h]
    have hpos : (0 : ℚ) < ((tokenSet q ∪ tokenSet d).card : ℚ) := by
      exact_mod_cast Nat.pos_of_ne_zero h
    have hle : (tokenSet q ∩ tokenSet d).card ≤ (tokenSet q ∪ tokenSet d).card :=
      Finset.card_le_card Finset.inter_subset_union
    refine ⟨⟨div_nonneg (by positivity) hpos.le, ?_⟩, ?_, ?_⟩
    · rw [div_le_one hpos]
      exact_mod_cast hle
    · intro hq hd
      exact absurd (by rw [hq, hd]; simp) h
    · intro h1
      rw [div_eq_one_iff_eq hpos.ne'] at h1
      have hcard : (tokenSet q ∪ tokenSet d).card ≤ (tokenSet q ∩ tokenSet d).card := by
        have : ((tokenSet q ∩ tokenSet d).card : ℚ) = ((tokenSet q ∪ tokenSet d).card : ℚ) := h1
        exact_mod_cast this.ge
      have heq : tokenSet q ∪ tokenSet d = tokenSet q ∩ tokenSet d :=
        (Finset.eq_of_subset_of_card_le Finset.inter_subset_union hcard).symm
      have hqd : tokenSet q = tokenSet d := by
        apply Finset.Subset.antisymm
        · intro x hx
          have hx' : x ∈ tokenSet q ∪ tokenSet d := Finset.subset_union_left hx
          rw [heq] at hx'
          exact Finset.inter_subset_right hx'
        · intro x hx
          have hx' : x ∈ tokenSet q ∪ tokenSet d := Finset.subset_union_right hx
          rw [heq] at hx'
          exact Finset.inter_subset_left hx'
      refine ⟨hqd, ?_⟩
      intro hempty
      apply h
      rw [hqd] at hempty ⊢
      rw [hempty]
      simp

end RAG

namespace RAG

theorem scoresList_pairwise_fst (rag : RAGPipeline) (q : String) :
    (scoresList rag q).Pairwise (fun a b => a.1 < b.1) := by
  have h0 : (List.range rag.documents.length).Pairwise (· < ·) :=
    List.pairwise_lt_range _
  rw [← List.enum_map_fst rag.documents] at h0
  have h1 : (rag.documents.enum).Pairwise (fun a b => a.1 < b.1) :=
    List.pairwise_map.mp h0
  unfold scoresList
  rw [List.pairwise_map]
  exact h1

theorem insertionSort_stable_fst (l : List (Nat × ℚ))
    (h : l.Pairwise (fun a b => a.1 < b.1)) :
    (l.insertionSort scoreLE).Pairwise (fun a b => a.2 = b.2 → a.1 < b.1) := by
  have hnd : l.Nodup := h.imp (fun hab heq => absurd (heq ▸ hab) (lt_irrefl _))
  have hperm := List.perm_insertionSort scoreLE l
  have hndout : (l.insertionSort scoreLE).Nodup := hperm.nodup_iff.mpr hnd
  set out := l.insertionSort scoreLE with hout
  rw [List.pairwise_iff_getElem]
  intro i j hi hj hij hEq
  by_contra hnot
  have hne : out[i] ≠ out[j] :=
    fun hc => absurd (hndout.getElem_inj_iff.mp hc) (Nat.ne_of_lt hij)
  have hfst : out[j].1 < out[i].1 := by
    rcases Nat.lt_trichotomy (out[i].1) (out[j].1) with h1 | h1 | h1
    · exact absurd h1 hnot
    · exact absurd (Prod.ext h1 hEq) hne
    · exact h1
  have hxl : out[i] ∈ l := hperm.subset (List.getElem_mem hi)
  have hyl : out[j] ∈ l := hperm.subset (List.getElem_mem hj)
  obtain ⟨p, hp, hpy⟩ := List.getElem_of_mem hyl
  obtain ⟨s, hs, hsx⟩ := List.getElem_of_mem hxl
  have hps : p < s := by
    rcases Nat.lt_trichotomy p s with h1 | h1 | h1
    · exact h1
    · subst h1
      exact absurd (hsx.symm.trans hpy) hne
    · have h2 := (List.pairwise_iff_getElem.mp h) s p hs hp h1
      rw [hsx, hpy] at h2
      exact absurd h2 hnot
  have hpairl : [out[j], out[i]].Sublist l := by
    have hpw : ([⟨p, hp⟩, ⟨s, hs⟩] : List (Fin l.length)).Pairwise (· < ·) := by
      simp [List.pairwise_cons, hps]
    have hmap := List.map_getElem_sublist hpw
    simpa [hpy, hsx] using hmap
  have hpairout : [out[j], out[i]].Sublist out :=
    List.pair_sublist_insertionSort (le_of_eq hEq) hpairl
  obtain ⟨is, hmap2, hpw2⟩ := List.sublist_eq_map_getElem hpairout
  rcases is with _ | ⟨a, _ | ⟨b, _ | ⟨c, t⟩⟩⟩ <;> simp at hmap2
  obtain ⟨h1, h2⟩ := hmap2
  have hab : (a : Nat) < (b : Nat) := by
    have := (List.pairwise_cons.mp hpw2).1 b (by simp)
    exact this
  have hja : j = (a : Nat) := hndout.getElem_inj_iff.mp h1
  have hib : i = (b : Nat) := hndout.getElem_inj_iff.mp h2
  omega

/-- Claim C4: in the sequence returned by `retrieve`, similarity scores
are non-increasing in position; and in the ranked, truncated score list
that `retrieve` builds its results from, any two entries with equal score
keep their corpus insertion order (stable descending sort). -/
theorem retrieve_ranking (rag : RAGPipeline) (q : String) (k : ℤ) :
    (retrieve rag q k).Pairwise
        (fun a b => b.similarity_score ≤ a.similarity_score)
    ∧ (pySlice (sortedScores rag q) k).Pairwise
        (fun a b => a.2 = b.2 → a.1 < b.1) := by
  constructor
  · have hs : (sortedScores rag q).Pairwise scoreLE :=
      List.sorted_insertionSort scoreLE (scoresList rag q)
    have hsl : (pySlice (sortedScores rag q) k).Pairwise scoreLE :=
      hs.sublist (pySlice_sublist _ _)
    have henum : ((pySlice (sortedScores rag q) k).enum).Pairwise
        (fun a b => scoreLE a.2 b.2) := by
      rw [← List.enum_map_snd (pySlice (sortedScores rag q) k)] at hsl
      exact List.pairwise_map.mp hsl
    unfold retrieve
    rw [List.pairwise_map]
    exact henum
  · exact (insertionSort_stable_fst _ (scoresList_pairwise_fst rag q)).sublist
      (pySlice_sublist _ _)

end RAG

namespace RAG

attribute [local semireducible] Rat.add Rat.sub Rat.mul Rat.inv

/-- Claim C7: `evaluate_relevance` is exactly the threshold test on the
similarity score, computed without touching any pipeline state; on the
spec's two examples with threshold `0.2` it returns `true` and `false`
respectively. -/
theorem evaluate_relevance_spec :
    (∀ (q d : String) (t : ℚ),
        evaluate_relevance q d t = true ↔ t ≤ calculateSimilarity q d)
    ∧ evaluate_relevance "minimum GPA"
        "Minimum GPA to maintain good standing is 2.0" (1/5) = true
    ∧ evaluate_relevance "minimum GPA"
        "Scholarship deadlines vary by department" (1/5) = false := by
  refine ⟨fun q d t => ?_, by decide, by decide⟩
  simp [evaluate_relevance, ge_iff_le]

set_option maxRecDepth 40000 in
/-- Claim C1: on the built-in 14-document corpus, the spec's example
query with `top_k = 1` returns exactly one result, with rank 1, whose
text is the BS Electrical Engineering admission document. -/
theorem retrieve_example_query :
    (retrieve initPipeline "What is the eligibility for BS Electrical Engineering?" 1).map
        (fun r => (r.rank, r.text, metaGet r.metadata "category"))
      = [(1, "BS Electrical Engineering admission requirements: Minimum GPA 3.2, SAT score 1400+, ACT score 32+, completion of physics and chemistry courses, application deadline March 31", some "admission")] := by
  decide

set_option maxRecDepth 40000 in
/-- Counterexample to claim C2 as stated: with `top_k = -1` the result of
`retrieve` is not the empty sequence (Python slicing keeps the first
`corpus size - 1` entries). -/
theorem retrieve_negative_not_empty :
    retrieve initPipeline "x" (-1) ≠ [] := by
  decide

end RAG
